import Mathlib

set_option maxHeartbeats 1000000

/-
Shallow embedding of pyattck's `AttckObject` core
(src/pyattck/enterprise/attckobject.py): the attribute-normalization
methods (`_set_id`, `_set_attribute`, `__set_alias`, `_set_list_items`,
`_create_data_sources_dict`) and the process-wide relationship index
(`set_relationships` over the class attribute `_RELATIONSHIPS`).

Dynamic values are modelled by `PyVal` (null, string, list, string-keyed
dict); code that can raise at runtime is modelled in `Except String`,
the error payload naming the Python exception class.
-/

namespace Pyattck

/-- Values of the dynamic language that the analysed code manipulates:
None, strings, lists and string-keyed dictionaries. -/
inductive PyVal : Type where
  | vnone : PyVal
  | vstr : String → PyVal
  | vlist : List PyVal → PyVal
  | vdict : List (String × PyVal) → PyVal

open PyVal

/-- A dictionary: an insertion-ordered association list with string keys
(Python dicts preserve insertion order and have unique keys; lookups
return the first matching binding). -/
abbrev Dict := List (String × PyVal)

/-- A raw MITRE ATT&CK record, as passed to `AttckObject.__init__` via kwargs. -/
abbrev RawRecord := Dict

/-- Python `d.get(k)`: the stored value, or None when the key is missing. -/
def dget (d : Dict) (k : String) : PyVal :=
  match d.find? (fun kv => decide (kv.1 = k)) with
  | some kv => kv.2
  | none => vnone

/-- Python `k in d` for a dict. -/
def dHasKey (d : Dict) (k : String) : Bool :=
  d.any (fun kv => decide (kv.1 = k))

/-- Python `d[k]`: the stored value, or a KeyError when the key is missing. -/
def dIndex (d : Dict) (k : String) : Except String PyVal :=
  match d.find? (fun kv => decide (kv.1 = k)) with
  | some kv => .ok kv.2
  | none => .error "KeyError"

/-- Python truthiness for the modelled value shapes: None, the empty
string, the empty list and the empty dict are falsy. -/
def truthy : PyVal → Bool
  | vnone => false
  | vstr s => !(decide (s = ""))
  | vlist xs => !xs.isEmpty
  | vdict kvs => !kvs.isEmpty

/-- Character-list prefix test (needle, haystack). -/
def startsWithCL : List Char → List Char → Bool
  | [], _ => true
  | _ :: _, [] => false
  | a :: as, b :: bs => decide (a = b) && startsWithCL as bs

/-- Substring containment on character lists: needle occurs somewhere. -/
def hasSubCL (needle : List Char) : List Char → Bool
  | [] => startsWithCL needle []
  | c :: rest => startsWithCL needle (c :: rest) || hasSubCL needle rest

/-- Python `needle in hay` for two strings: substring containment. -/
def pyInS (needle hay : String) : Bool := hasSubCL needle.data hay.data

/-- Worker for `str.split(':')`: the accumulator holds the current chunk
reversed. -/
def splitColonAux : List Char → List Char → List (List Char)
  | [], cur => [cur.reverse]
  | c :: rest, cur =>
    if c = ':' then cur.reverse :: splitColonAux rest []
    else splitColonAux rest (c :: cur)

/-- Python `s.split(':')`. -/
def splitColon (s : String) : List String :=
  (splitColonAux s.data []).map String.mk

/-- Python's ASCII whitespace as stripped by `str.strip()`
(space, tab, newline, carriage return, vertical tab, form feed). -/
def isPySpace (c : Char) : Bool :=
  c == ' ' || c == '\t' || c == '\n' || c == '\r' || c == '\x0b' || c == '\x0c'

/-- Python `s.strip()`: remove leading and trailing whitespace. -/
def pyStrip (s : String) : String :=
  String.mk (((s.data.dropWhile isPySpace).reverse.dropWhile isPySpace).reverse)

/-- Python `'NIST' in s` for a string s. -/
def nistSub (s : String) : Bool := pyInS "NIST" s

/-- The scan inside `_set_id` over the entries of `external_references`.
Per entry p: if `p.get('source_name') == 'mitre-attack'` return
`p.get('external_id')`; elif `'NIST' in p.get('source_name')` return
`p.get('external_id')`; a missing source_name makes the elif raise
TypeError (`'NIST' in None`); a non-dict entry makes `p.get` raise
AttributeError; `'NIST' in sn` for a list/dict source_name is Python
membership. -/
def set_id_scan : List PyVal → Except String PyVal
  | [] => .ok (vstr "No ID Defined")
  | p :: rest =>
    match p with
    | vdict kvs =>
      match dget kvs "source_name" with
      | vstr s =>
        if s = "mitre-attack" then .ok (dget kvs "external_id")
        else if nistSub s then .ok (dget kvs "external_id")
        else set_id_scan rest
      | vnone => .error "TypeError"
      | vlist xs =>
        if xs.any (fun x => match x with | vstr t => decide (t = "NIST") | _ => false)
        then .ok (dget kvs "external_id") else set_id_scan rest
      | vdict k2 =>
        if k2.any (fun kv => decide (kv.1 = "NIST"))
        then .ok (dget kvs "external_id") else set_id_scan rest
    | _ => .error "AttributeError"

/-- `AttckObject._set_id(obj)`: if `obj.get('external_references')` is
truthy, scan its entries; a truthy non-list value fails on the first
iteration step (items of a string/dict iteration are strings, whose
`.get` raises AttributeError). Otherwise the sentinel. -/
def set_id (obj : RawRecord) : Except String PyVal :=
  let er := dget obj "external_references"
  if truthy er then
    match er with
    | vlist xs => set_id_scan xs
    | vstr _ => .error "AttributeError"
    | vdict _ => .error "AttributeError"
    | vnone => .error "TypeError"
  else .ok (vstr "No ID Defined")

/-- `AttckObject._set_attribute(obj, name)`: `value = obj.get(name);
return None if not value else value`. The surrounding try/except never
fires for a dict argument, which is the only shape modelled here. -/
def set_attribute (obj : RawRecord) (name : String) : PyVal :=
  let value := dget obj name
  if truthy value then value else vnone

/-- Python iteration over a value already known truthy: a list yields its
items, a string its characters (as 1-character strings), a dict its keys.
The None case is unreachable at every call site (None is falsy). -/
def pyIter : PyVal → List PyVal
  | vnone => []
  | vstr s => s.data.map (fun c => vstr (String.singleton c))
  | vlist xs => xs
  | vdict kvs => kvs.map (fun kv => vstr kv.1)

/-- `AttckObject.__set_alias(obj)`: append every item of a truthy
`aliases` field, then every item of a truthy `x_mitre_aliases` field. -/
def set_alias (obj : RawRecord) : List PyVal :=
  (if truthy (dget obj "aliases") then pyIter (dget obj "aliases") else []) ++
  (if truthy (dget obj "x_mitre_aliases") then pyIter (dget obj "x_mitre_aliases") else [])

/-- Python's `if k not in d: d[k] = []` followed by `d[k].append(v)` over
an insertion-ordered dictionary of lists. -/
def dictAppend {κ α : Type} [DecidableEq κ]
    (d : List (κ × List α)) (k : κ) (v : α) : List (κ × List α) :=
  if d.any (fun kv => decide (kv.1 = k)) then
    d.map (fun kv => if kv.1 = k then (kv.1, kv.2 ++ [v]) else kv)
  else d ++ [(k, [v])]

/-- Lookup in a dictionary of lists; the empty list when the key is absent. -/
def getList {κ α : Type} [DecidableEq κ]
    (d : List (κ × List α)) (k : κ) : List α :=
  match d.find? (fun kv => decide (kv.1 = k)) with
  | some kv => kv.2
  | none => []

/-- One loop iteration of `_create_data_sources_dict`: `if ':' in item`
guard, then `data_source, data_component = item.split(':')` (ValueError
when the split has more than two parts), then append the stripped
component under the source. Non-string items follow Python's `in`:
None raises TypeError; for a list/dict the membership test runs and a hit
makes the subsequent `.split` raise AttributeError. -/
def dsStep (acc : List (String × List String)) (item : PyVal) :
    Except String (List (String × List String)) :=
  match item with
  | vstr s =>
    if pyInS ":" s then
      match splitColon s with
      | [ds, dc] => .ok (dictAppend acc ds (pyStrip dc))
      | _ => .error "ValueError"
    else .ok acc
  | vnone => .error "TypeError"
  | vlist xs =>
    if xs.any (fun x => match x with | vstr t => decide (t = ":") | _ => false)
    then .error "AttributeError" else .ok acc
  | vdict kvs =>
    if kvs.any (fun kv => decide (kv.1 = ":"))
    then .error "AttributeError" else .ok acc

/-- `AttckObject._create_data_sources_dict(obj)`: the empty dict unless
obj is a list, else the left fold of `dsStep` over its items. -/
def create_data_sources_dict (obj : PyVal) :
    Except String (List (String × List String)) :=
  match obj with
  | vlist xs => xs.foldlM dsStep []
  | _ => .ok []

/-- Python iteration where the value is not known truthy: iterating None
raises TypeError. -/
def pyIterE : PyVal → Except String (List PyVal)
  | vnone => .error "TypeError"
  | vstr s => .ok (s.data.map (fun c => vstr (String.singleton c)))
  | vlist xs => .ok xs
  | vdict kvs => .ok (kvs.map (fun kv => vstr kv.1))

/-- `AttckObject._set_list_items(obj, list_name)`: when the key is
present, copy the items of its value into a fresh list and return it;
when absent, fall through and return None. -/
def set_list_items (obj : RawRecord) (list_name : String) :
    Except String (Option (List PyVal)) :=
  if dHasKey obj list_name then
    match pyIterE (dget obj list_name) with
    | .ok items => .ok (some items)
    | .error e => .error e
  else .ok none

/-- The process-wide relationship index `AttckObject._RELATIONSHIPS`:
a dict from ref (a hashable value: None or a string) to the list of refs
appended for it. -/
abbrev RelDict := List (Option String × List (Option String))

/-- A value used as a Python dict key must be hashable: of the modelled
shapes only None and strings are; a list or dict key raises TypeError. -/
def keyOf : PyVal → Except String (Option String)
  | vnone => .ok none
  | vstr s => .ok (some s)
  | _ => .error "TypeError"

/-- One loop iteration of `set_relationships`: `if 'type' in item` then
`if item['type'] == 'relationship'` then read `source_ref` and
`target_ref` (KeyError when missing) and append each to the other's
adjacency list. Non-dict items follow Python's `'type' in item`:
None raises TypeError; for a string/list a hit makes `item['type']`
raise TypeError (string/list indices must be integers). -/
def relStep (acc : RelDict) (item : PyVal) : Except String RelDict :=
  match item with
  | vdict kvs =>
    if dHasKey kvs "type" then
      match dget kvs "type" with
      | vstr ty =>
        if ty = "relationship" then
          match dIndex kvs "source_ref", dIndex kvs "target_ref" with
          | .ok sv, .ok tv =>
            match keyOf sv, keyOf tv with
            | .ok sk, .ok tk => .ok (dictAppend (dictAppend acc sk tk) tk sk)
            | .error e, _ => .error e
            | _, .error e => .error e
          | .error e, _ => .error e
          | _, .error e => .error e
        else .ok acc
      | _ => .ok acc
    else .ok acc
  | vnone => .error "TypeError"
  | vstr s => if pyInS "type" s then .error "TypeError" else .ok acc
  | vlist xs =>
    if xs.any (fun x => match x with | vstr t => decide (t = "type") | _ => false)
    then .error "TypeError" else .ok acc

/-- The scan of `set_relationships` over `attck_obj['objects']`. -/
def build_relationships (obj : RawRecord) : Except String RelDict :=
  match dIndex obj "objects" with
  | .error e => .error e
  | .ok ov =>
    match pyIterE ov with
    | .error e => .error e
    | .ok items => items.foldlM relStep []

/-- The guard `if not AttckObject._RELATIONSHIPS`: falsy both for the
initial None and for an empty dict. -/
def relTruthy : Option RelDict → Bool
  | none => false
  | some d => !d.isEmpty

/-- `AttckObject.set_relationships(attck_obj)` as a transformer of the
class-level `_RELATIONSHIPS` state: when the cached value is truthy the
call returns it unchanged without scanning; otherwise the full scan runs
and its result replaces the cache. -/
def set_relationships (st : Option RelDict) (obj : RawRecord) :
    Except String (Option RelDict) :=
  if relTruthy st then .ok st
  else match build_relationships obj with
    | .ok d => .ok (some d)
    | .error e => .error e

/-- An external-reference entry qualifies for `_set_id` when its
source_name is the string "mitre-attack" or a string containing "NIST"
(spec-side predicate for the first-match formulation). -/
def qualifies : PyVal → Bool
  | vdict kvs =>
    match dget kvs "source_name" with
    | vstr s => decide (s = "mitre-attack") || nistSub s
    | _ => false
  | _ => false

/-- An entry on which the `_set_id` scan cannot raise: a dict whose
source_name is a string. -/
def entryOk : PyVal → Bool
  | vdict kvs =>
    match dget kvs "source_name" with
    | vstr _ => true
    | _ => false
  | _ => false

/-- The external_id field of a reference entry. -/
def extIdOf : PyVal → PyVal
  | vdict kvs => dget kvs "external_id"
  | _ => vnone

/-- Spec-side identifier resolution: the external_id of the first
qualifying entry, else the sentinel. -/
def firstQualifyingId (xs : List PyVal) : PyVal :=
  match xs.find? qualifies with
  | some p => extIdOf p
  | none => vstr "No ID Defined"

/-- Spec-side reading of one data-source entry: a pair (source,
stripped component) when the entry has exactly one separator. -/
def pairOf (s : String) : Option (String × String) :=
  match splitColon s with
  | [ds, dc] => some (ds, pyStrip dc)
  | _ => none

/-- Spec-side list of (source, component) pairs of a data-source list,
in encounter order, entries without a separator dropped. -/
def specPairs (xs : List String) : List (String × String) :=
  xs.filterMap pairOf

/-- Keys in order of first occurrence. -/
def orderedKeys (ps : List (String × String)) : List String :=
  ps.foldl (fun acc p => if p.1 ∈ acc then acc else acc ++ [p.1]) []

/-- The pure step `dsStep` takes on a string item with at most one
separator. -/
def dsApply (acc : List (String × List String)) (s : String) :
    List (String × List String) :=
  match pairOf s with
  | some p => dictAppend acc p.1 p.2
  | none => acc

/-- A minimal relationship-typed record. -/
def mkRel (s t : String) : PyVal :=
  vdict [("type", vstr "relationship"), ("source_ref", vstr s), ("target_ref", vstr t)]

/-- A dataset holding exactly the given relationship records. -/
def mkDataset (prs : List (String × String)) : RawRecord :=
  [("objects", vlist (prs.map (fun p => mkRel p.1 p.2)))]

/-- What one relationship record (source, target) contributes to the
adjacency list of key k: its target if k is the source, then its source
if k is the target. -/
def contrib (k : Option String) (p : String × String) : List (Option String) :=
  (if some p.1 = k then [some p.2] else []) ++ (if some p.2 = k then [some p.1] else [])

/-- Spec-side adjacency of key k: the concatenation, in encounter order,
of every record's contribution. -/
def specAdj (prs : List (String × String)) (k : Option String) : List (Option String) :=
  (prs.map (contrib k)).flatten

/-- The pure state transformation of one relationship record:
target appended under the source key, then source under the target key. -/
def relPure (acc : RelDict) (p : String × String) : RelDict :=
  dictAppend (dictAppend acc (some p.1) (some p.2)) (some p.2) (some p.1)

/-- Appending under key k0 extends exactly k0's list, at its end;
every other key's list is untouched; k0's list is created when absent. -/
theorem getList_dictAppend {κ α : Type} [DecidableEq κ]
    (d : List (κ × List α)) (k0 k : κ) (v : α) :
    getList (dictAppend d k0 v) k = getList d k ++ (if k0 = k then [v] else []) := by
  unfold dictAppend getList
  cases hmem : d.any (fun kv => decide (kv.1 = k0)) with
  | true =>
    simp only [if_true]
    rw [List.find?_map]
    have hcomp : ((fun kv : κ × List α => decide (kv.1 = k)) ∘
        (fun kv : κ × List α => if kv.1 = k0 then (kv.1, kv.2 ++ [v]) else kv)) =
        (fun kv : κ × List α => decide (kv.1 = k)) := by
      funext kv
      by_cases h : kv.1 = k0 <;> simp [h]
    rw [hcomp]
    cases hf : d.find? (fun kv => decide (kv.1 = k)) with
    | none =>
      have hk0 : ¬(k0 = k) := by
        intro he
        subst he
        rcases List.any_eq_true.mp hmem with ⟨kv, hkv, hp⟩
        exact (List.find?_eq_none.mp hf kv hkv) hp
      simp [hk0]
    | some kv =>
      have hk : kv.1 = k := by simpa using List.find?_some hf
      by_cases he : k0 = k
      · subst he
        simp [Option.map, hk]
      · have hne : ¬(kv.1 = k0) := by
          rw [hk]
          exact fun h => he h.symm
        simp [Option.map, hne, he]
  | false =>
    simp only [Bool.false_eq_true, if_false]
    rw [List.find?_append]
    have hall : ∀ x ∈ d, ¬(decide (x.1 = k0) = true) :=
      fun x hx => by simpa using List.any_eq_false.mp hmem x hx
    cases hf : d.find? (fun kv => decide (kv.1 = k)) with
    | none =>
      simp only [Option.or]
      by_cases he : k0 = k
      · subst he
        simp [List.find?]
      · simp [List.find?, he]
    | some kv =>
      have hk : kv.1 = k := by simpa using List.find?_some hf
      have hne : ¬(k0 = k) := by
        intro he
        subst he
        exact (hall kv (List.mem_of_find?_eq_some hf)) (decide_eq_true hk)
      simp [Option.or, hne]

/-- Appending under key k0 leaves the key sequence unchanged when k0 is
already present, and appends k0 at the end otherwise. -/
theorem keys_dictAppend {κ α : Type} [DecidableEq κ]
    (d : List (κ × List α)) (k : κ) (v : α) :
    (dictAppend d k v).map Prod.fst =
      if k ∈ d.map Prod.fst then d.map Prod.fst else d.map Prod.fst ++ [k] := by
  unfold dictAppend
  cases hmem : d.any (fun kv => decide (kv.1 = k)) with
  | true =>
    have hk : k ∈ d.map Prod.fst := by
      rcases List.any_eq_true.mp hmem with ⟨kv, hkv, hp⟩
      exact List.mem_map.mpr ⟨kv, hkv, of_decide_eq_true hp⟩
    simp only [if_true, hk, List.map_map]
    have hfst : (Prod.fst ∘ fun kv : κ × List α => if kv.1 = k then (kv.1, kv.2 ++ [v]) else kv) =
        (Prod.fst : κ × List α → κ) := by
      funext kv
      by_cases h : kv.1 = k <;> simp [h]
    rw [hfst]
  | false =>
    have hk : k ∉ d.map Prod.fst := by
      intro hm
      rcases List.mem_map.mp hm with ⟨kv, hkv, hfst⟩
      exact absurd (List.any_eq_false.mp hmem kv hkv) (by simp [hfst])
    simp [hk]

/-- Left-folding appends over a pair list: the list held at k is the
initial list followed by the second components of the pairs keyed k,
in order. -/
theorem getList_foldl_pairs {κ α : Type} [DecidableEq κ]
    (ps : List (κ × α)) (acc : List (κ × List α)) (k : κ) :
    getList (ps.foldl (fun a p => dictAppend a p.1 p.2) acc) k
      = getList acc k ++ (ps.filter (fun p => decide (p.1 = k))).map Prod.snd := by
  induction ps generalizing acc with
  | nil => simp
  | cons p rest ih =>
    simp only [List.foldl_cons, List.filter_cons]
    rw [ih, getList_dictAppend]
    by_cases h : p.1 = k <;> simp [h]

/-- Left-folding appends over a pair list: the key sequence is the
insertion-order fold of first occurrences over the initial keys. -/
theorem keys_foldl_pairs {κ α : Type} [DecidableEq κ]
    (ps : List (κ × α)) (acc : List (κ × List α)) :
    (ps.foldl (fun a p => dictAppend a p.1 p.2) acc).map Prod.fst
      = ps.foldl (fun a p => if p.1 ∈ a then a else a ++ [p.1]) (acc.map Prod.fst) := by
  induction ps generalizing acc with
  | nil => rfl
  | cons p rest ih =>
    simp only [List.foldl_cons]
    rw [ih, keys_dictAppend]

/-- On a relationship record the loop body performs exactly the two
appends, source first. -/
theorem relStep_mkRel (acc : RelDict) (p : String × String) :
    relStep acc (mkRel p.1 p.2) = .ok (relPure acc p) := rfl

/-- Scanning a list of relationship records is the pure left fold of the
two-append step. -/
theorem foldlM_relStep (prs : List (String × String)) (acc : RelDict) :
    List.foldlM relStep acc (prs.map (fun p => mkRel p.1 p.2)) = .ok (prs.foldl relPure acc) := by
  induction prs generalizing acc with
  | nil => rfl
  | cons p rest ih =>
    simp only [List.map_cons, List.foldlM_cons, List.foldl_cons, relStep_mkRel]
    simpa using ih (relPure acc p)

/-- One relationship record extends the adjacency list of k by exactly
its contribution. -/
theorem getList_relPure (acc : RelDict) (p : String × String) (k : Option String) :
    getList (relPure acc p) k = getList acc k ++ contrib k p := by
  unfold relPure contrib
  rw [getList_dictAppend, getList_dictAppend, List.append_assoc]

/-- Folding relationship records extends the adjacency list of k by the
concatenation of the records' contributions, in encounter order. -/
theorem getList_foldl_relPure (prs : List (String × String)) (acc : RelDict) (k : Option String) :
    getList (prs.foldl relPure acc) k = getList acc k ++ specAdj prs k := by
  induction prs generalizing acc with
  | nil => simp [specAdj]
  | cons p rest ih =>
    simp only [List.foldl_cons, specAdj, List.map_cons, List.flatten]
    rw [ih, getList_relPure, List.append_assoc]
    rfl

/-- The number of chunks produced by the split is one more than the
number of separators, whatever is already in the accumulator. -/
theorem splitColonAux_length (l cur : List Char) :
    (splitColonAux l cur).length = 1 + l.countP (fun c => decide (c = ':')) := by
  induction l generalizing cur with
  | nil => simp [splitColonAux]
  | cons c rest ih =>
    unfold splitColonAux
    by_cases h : c = ':'
    · rw [if_pos h, List.length_cons, ih, List.countP_cons]
      simp [h]
      omega
    · rw [if_neg h, ih, List.countP_cons]
      simp [h]

/-- Containment of the single-character needle ':' is an element test. -/
theorem hasSub_colon (l : List Char) :
    hasSubCL [':'] l = l.any (fun c => decide (c = ':')) := by
  induction l with
  | nil => rfl
  | cons c rest ih =>
    simp only [hasSubCL, startsWithCL, List.any_cons, ih, Bool.and_true]
    by_cases h : c = ':'
    · subst h
      simp
    · have h' : ¬(':' = c) := fun he => h he.symm
      simp [h, h']

/-- The `':' in item` guard holds exactly when the split has at least two
parts. -/
theorem pyInS_colon (s : String) : pyInS ":" s = true ↔ 2 ≤ (splitColon s).length := by
  unfold pyInS splitColon
  rw [List.length_map, splitColonAux_length]
  have hdata : (":" : String).data = [':'] := rfl
  rw [hdata, hasSub_colon, List.any_eq_true]
  constructor
  · rintro ⟨c, hc, hp⟩
    have hpos : 0 < s.data.countP (fun c => decide (c = ':')) :=
      List.countP_pos_iff.mpr ⟨c, hc, hp⟩
    omega
  · intro h
    have hpos : 0 < s.data.countP (fun c => decide (c = ':')) := by omega
    exact List.countP_pos_iff.mp hpos

/-- On a string item with at most one separator the loop body of
`_create_data_sources_dict` cannot raise and acts as the pure step. -/
theorem dsStep_str (acc : List (String × List String)) (s : String)
    (h : (splitColon s).length ≤ 2) :
    dsStep acc (vstr s) = .ok (dsApply acc s) := by
  unfold dsStep dsApply pairOf
  rcases hsp : splitColon s with _ | ⟨a, _ | ⟨b, _ | ⟨c, tl⟩⟩⟩
  · have hg : pyInS ":" s = false := by
      cases hb : pyInS ":" s with
      | false => rfl
      | true =>
        have h2 := (pyInS_colon s).mp hb
        rw [hsp] at h2
        simp at h2
    simp [hg, hsp]
  · have hg : pyInS ":" s = false := by
      cases hb : pyInS ":" s with
      | false => rfl
      | true =>
        have h2 := (pyInS_colon s).mp hb
        rw [hsp] at h2
        simp at h2
    simp [hg, hsp]
  · have hg : pyInS ":" s = true := (pyInS_colon s).mpr (by rw [hsp]; simp)
    simp [hg, hsp]
  · rw [hsp] at h
    simp at h

/-- Scanning a list of single-separator string items never raises and is
the pure left fold of the per-item step. -/
theorem foldlM_dsStep (xs : List String) (acc : List (String × List String))
    (h : ∀ s ∈ xs, (splitColon s).length ≤ 2) :
    List.foldlM dsStep acc (xs.map vstr) = .ok (xs.foldl dsApply acc) := by
  induction xs generalizing acc with
  | nil => rfl
  | cons s rest ih =>
    simp only [List.map_cons, List.foldlM_cons, List.foldl_cons]
    rw [dsStep_str acc s (h s (List.mem_cons_self s rest))]
    simpa using ih (dsApply acc s) (fun t ht => h t (List.mem_cons_of_mem s ht))

/-- The pure fold over items equals the fold of plain appends over the
extracted (source, component) pairs. -/
theorem foldl_dsApply_specPairs (xs : List String) (acc : List (String × List String)) :
    xs.foldl dsApply acc = (specPairs xs).foldl (fun a p => dictAppend a p.1 p.2) acc := by
  induction xs generalizing acc with
  | nil => rfl
  | cons s rest ih =>
    simp only [List.foldl_cons, specPairs, List.filterMap_cons]
    cases hp : pairOf s with
    | none =>
      simp only [dsApply, hp]
      exact ih acc
    | some p =>
      simp only [dsApply, hp, List.foldl_cons]
      exact ih (dictAppend acc p.1 p.2)

/-- The `_set_id` scan over a list of well-formed entries returns the
external_id of the first qualifying entry, else the sentinel. -/
theorem set_id_scan_eq (xs : List PyVal) (h : ∀ p ∈ xs, entryOk p = true) :
    set_id_scan xs = .ok (firstQualifyingId xs) := by
  induction xs with
  | nil => rfl
  | cons p rest ih =>
    have hp := h p (List.mem_cons_self p rest)
    cases p with
    | vnone => simp [entryOk] at hp
    | vstr s => simp [entryOk] at hp
    | vlist l => simp [entryOk] at hp
    | vdict kvs =>
      cases hsn : dget kvs "source_name" with
      | vnone => simp [entryOk, hsn] at hp
      | vlist l => simp [entryOk, hsn] at hp
      | vdict k2 => simp [entryOk, hsn] at hp
      | vstr s =>
        have hq : qualifies (vdict kvs) = (decide (s = "mitre-attack") || nistSub s) := by
          simp only [qualifies, hsn]
        simp only [set_id_scan, hsn]
        unfold firstQualifyingId
        by_cases hm : s = "mitre-attack"
        · rw [if_pos hm, List.find?_cons_of_pos _ (by simp [hq, hm])]
          simp [extIdOf]
        · rw [if_neg hm]
          by_cases hn : nistSub s = true
          · rw [if_pos hn, List.find?_cons_of_pos _ (by simp [hq, hn])]
            simp [extIdOf]
          · rw [if_neg hn, List.find?_cons_of_neg _ (by simp [hq, hm, hn])]
            rw [ih (fun q hqm => h q (List.mem_cons_of_mem (vdict kvs) hqm))]
            unfold firstQualifyingId
            rfl

/-- For a record whose external_references is a list of well-formed
entries, `_set_id` returns the external_id of the first qualifying
entry, else the sentinel (shared between the identifier claims). -/
theorem set_id_first (obj : RawRecord) (xs : List PyVal)
    (he : dget obj "external_references" = vlist xs)
    (h : ∀ p ∈ xs, entryOk p = true) :
    set_id obj = .ok (firstQualifyingId xs) := by
  unfold set_id
  rw [he]
  cases xs with
  | nil => rfl
  | cons p rest =>
    simp only [truthy, List.isEmpty_cons, Bool.not_false, if_true]
    exact set_id_scan_eq _ h

/-- A missing key reads as None through `dict.get`. -/
theorem dget_of_not_has (d : Dict) (k : String) (h : dHasKey d k = false) :
    dget d k = vnone := by
  unfold dget
  have hf : d.find? (fun kv => decide (kv.1 = k)) = none :=
    List.find?_eq_none.mpr (fun x hx => by simpa using List.any_eq_false.mp h x hx)
  rw [hf]

/-- C1 (amended): for every record whose external_references is a list
of well-formed entries, `_set_id` returns the external_id of the first
entry whose source_name equals "mitre-attack" or contains "NIST": a
mitre-attack entry wins over any later NIST-containing entry, but an
earlier NIST-containing entry wins over a later mitre-attack entry;
later matching entries are never considered once an earlier one
qualifies. -/
theorem claim_C1 (obj : RawRecord) (xs : List PyVal)
    (he : dget obj "external_references" = vlist xs)
    (h : ∀ p ∈ xs, entryOk p = true) :
    set_id obj = .ok (firstQualifyingId xs) :=
  set_id_first obj xs he h

/-- C1 witness: a concrete record with the mitre-attack entry first and
a NIST entry second resolves to the mitre-attack external_id. -/
theorem claim_C1_witness :
    set_id [("external_references", vlist
      [vdict [("source_name", vstr "mitre-attack"), ("external_id", vstr "T1059")],
       vdict [("source_name", vstr "NIST SP 800-53"), ("external_id", vstr "AC-1")]])]
      = .ok (vstr "T1059") := by
  have hmain := claim_C1 [("external_references", vlist
      [vdict [("source_name", vstr "mitre-attack"), ("external_id", vstr "T1059")],
       vdict [("source_name", vstr "NIST SP 800-53"), ("external_id", vstr "AC-1")]])]
      [vdict [("source_name", vstr "mitre-attack"), ("external_id", vstr "T1059")],
       vdict [("source_name", vstr "NIST SP 800-53"), ("external_id", vstr "AC-1")]]
      rfl (by decide)
  rw [hmain]
  rfl

/-- C1 counterexample: with a NIST-containing entry before the
mitre-attack entry, `_set_id` returns the NIST entry's external_id and
not the mitre-attack entry's, refuting "regardless of where an entry
whose source_name contains NIST appears in the list". -/
theorem claim_C1_counterexample :
    set_id [("external_references", vlist
      [vdict [("source_name", vstr "NIST SP 800-53"), ("external_id", vstr "AC-1")],
       vdict [("source_name", vstr "mitre-attack"), ("external_id", vstr "T1059")]])]
      = .ok (vstr "AC-1")
    ∧ vstr "AC-1" ≠ vstr "T1059" :=
  ⟨rfl, fun hcon => absurd (PyVal.vstr.inj hcon) (by decide)⟩

/-- C2 (amended): once the cached index is truthy (non-empty), a second
call to set_relationships returns it unchanged whatever dataset is
passed; but the cache guard is a falsiness test, so after a first build
that produced an empty index a later call re-runs the scan on its own
dataset and replaces the cache. -/
theorem claim_C2 :
    (∀ (d : RelDict) (obj : RawRecord), d ≠ [] →
      set_relationships (some d) obj = .ok (some d))
    ∧ (∀ (obj : RawRecord) (d : RelDict), build_relationships obj = .ok d →
        set_relationships (some []) obj = .ok (some d)) := by
  constructor
  · intro d obj hd
    unfold set_relationships relTruthy
    cases d with
    | nil => exact absurd rfl hd
    | cons x xs => rfl
  · intro obj d hb
    unfold set_relationships relTruthy
    simp [hb]

/-- C2 witness: a non-empty cached index is returned unchanged. -/
theorem claim_C2_witness :
    set_relationships (some [(some "A", [some "B"])]) []
      = .ok (some [(some "A", [some "B"])]) :=
  claim_C2.1 [(some "A", [some "B"])] [] (by decide)

/-- C2 counterexample: a first call on a dataset with zero relationship
records caches an empty index; a second call with a different dataset
rebuilds and changes the index, so the second call is not a no-op. -/
theorem claim_C2_counterexample :
    set_relationships none [("objects", vlist [])] = .ok (some [])
    ∧ set_relationships (some []) (mkDataset [("A", "B")])
        = .ok (some [(some "A", [some "B"]), (some "B", [some "A"])])
    ∧ (some [(some "A", [some "B"]), (some "B", [some "A"])] : Option RelDict) ≠ some [] :=
  ⟨rfl, rfl, by decide⟩

/-- C3 (amended): generic field extraction (`_set_attribute`) is total —
every result is the stored value or None — but construction is not
raise-free: `_set_id` raises TypeError on an external-reference entry
whose source_name is missing, and `_create_data_sources_dict` raises
ValueError on a list item holding more than one separator. -/
theorem claim_C3 :
    (∀ (obj : RawRecord) (name : String),
      set_attribute obj name = dget obj name ∨ set_attribute obj name = vnone)
    ∧ (∀ (obj : RawRecord) (kvs : List (String × PyVal)) (rest : List PyVal),
        dget obj "external_references" = vlist (vdict kvs :: rest) →
        dget kvs "source_name" = vnone →
        set_id obj = .error "TypeError")
    ∧ (∀ (s : String) (rest : List PyVal), 3 ≤ (splitColon s).length →
        create_data_sources_dict (vlist (vstr s :: rest)) = .error "ValueError") := by
  refine ⟨?_, ?_, ?_⟩
  · intro obj name
    unfold set_attribute
    by_cases h : truthy (dget obj name) = true
    · left
      simp [h]
    · right
      simp [h]
  · intro obj kvs rest he hsn
    unfold set_id
    rw [he]
    simp only [truthy, List.isEmpty_cons, Bool.not_false, if_true]
    simp only [set_id_scan, hsn]
  · intro s rest h3
    have hg : pyInS ":" s = true := (pyInS_colon s).mpr (by omega)
    have hstep : dsStep [] (vstr s) = .error "ValueError" := by
      simp only [dsStep]
      rw [if_pos hg]
      rcases hsp : splitColon s with _ | ⟨a, _ | ⟨b, _ | ⟨c, tl⟩⟩⟩
      · rfl
      · rfl
      · rw [hsp] at h3
        simp at h3
      · rfl
    show List.foldlM dsStep [] (vstr s :: rest) = .error "ValueError"
    rw [List.foldlM_cons, hstep]
    rfl

/-- C3 witness: the TypeError branch at a concrete record whose only
reference entry lacks source_name. -/
theorem claim_C3_witness :
    set_id [("external_references", vlist [vdict [("external_id", vstr "T1059")]])]
      = .error "TypeError" :=
  claim_C3.2.1 [("external_references", vlist [vdict [("external_id", vstr "T1059")]])]
    [("external_id", vstr "T1059")] [] rfl rfl

/-- C3 counterexample: concrete malformed records of exactly the kinds
the claim names — a reference entry lacking source_name, and a
data-source item with more than one separator — on which the code
raises rather than degrading the field. -/
theorem claim_C3_counterexample :
    set_id [("external_references", vlist [vdict [("external_id", vstr "T1059")]])]
      = .error "TypeError"
    ∧ create_data_sources_dict (vlist [vstr "a:b:c"]) = .error "ValueError" :=
  ⟨rfl, rfl⟩

/-- C4: every relationship record contributes two symmetric edges in
encounter order — for every key, the built index's adjacency list is
the flattening of each record's contribution (its target if the key is
its source, then its source if the key is its target) — and on the
concrete dataset {A→B, A→C} the index maps A to [B, C] and B to [A]. -/
theorem claim_C4 :
    (∀ prs : List (String × String), ∃ I,
      build_relationships (mkDataset prs) = .ok I ∧ ∀ k, getList I k = specAdj prs k)
    ∧ build_relationships (mkDataset [("A", "B"), ("A", "C")])
        = .ok [(some "A", [some "B", some "C"]), (some "B", [some "A"]), (some "C", [some "A"])]
    ∧ getList [(some "A", [some "B", some "C"]), (some "B", [some "A"]), (some "C", [some "A"])]
        (some "A") = [some "B", some "C"]
    ∧ getList [(some "A", [some "B", some "C"]), (some "B", [some "A"]), (some "C", [some "A"])]
        (some "B") = [some "A"] := by
  refine ⟨?_, rfl, rfl, rfl⟩
  intro prs
  refine ⟨prs.foldl relPure [], ?_, ?_⟩
  · show List.foldlM relStep [] (prs.map (fun p => mkRel p.1 p.2)) = _
    exact foldlM_relStep prs []
  · intro k
    rw [getList_foldl_relPure]
    simp [getList, List.find?]

/-- C5 (amended): `_set_id` returns the sentinel when
external_references is absent or falsy or no entry qualifies, and
otherwise returns the first qualifying entry's external_id field —
which is None, the absent-marker, when that entry lacks external_id. -/
theorem claim_C5 :
    (∀ obj : RawRecord, truthy (dget obj "external_references") = false →
      set_id obj = .ok (vstr "No ID Defined"))
    ∧ (∀ (obj : RawRecord) (xs : List PyVal) (p : PyVal),
        dget obj "external_references" = vlist xs → (∀ q ∈ xs, entryOk q = true) →
        xs.find? qualifies = some p → set_id obj = .ok (extIdOf p))
    ∧ (∀ (obj : RawRecord) (xs : List PyVal),
        dget obj "external_references" = vlist xs → (∀ q ∈ xs, entryOk q = true) →
        xs.find? qualifies = none → set_id obj = .ok (vstr "No ID Defined")) := by
  refine ⟨?_, ?_, ?_⟩
  · intro obj h
    unfold set_id
    simp [h]
  · intro obj xs p he h hf
    rw [set_id_first obj xs he h]
    unfold firstQualifyingId
    rw [hf]
  · intro obj xs he h hf
    rw [set_id_first obj xs he h]
    unfold firstQualifyingId
    rw [hf]

/-- C5 witness: a qualifying mitre-attack entry without external_id
resolves to that entry's (absent) external_id field. -/
theorem claim_C5_witness :
    set_id [("external_references", vlist [vdict [("source_name", vstr "mitre-attack")]])]
      = .ok (extIdOf (vdict [("source_name", vstr "mitre-attack")])) :=
  claim_C5.2.1 [("external_references", vlist [vdict [("source_name", vstr "mitre-attack")]])]
    [vdict [("source_name", vstr "mitre-attack")]]
    (vdict [("source_name", vstr "mitre-attack")]) rfl (by decide) rfl

/-- C5 counterexample: a qualifying entry without external_id makes
`_set_id` return None — the absent-marker, not a string and not the
sentinel. -/
theorem claim_C5_counterexample :
    set_id [("external_references", vlist [vdict [("source_name", vstr "mitre-attack")]])]
      = .ok vnone
    ∧ vnone ≠ vstr "No ID Defined" :=
  ⟨rfl, fun hcon => nomatch hcon⟩

/-- C6: `__set_alias` returns the concatenation, in order, of the
aliases entries followed by the x_mitre_aliases entries, each field
contributing nothing when absent; the result is always a list — empty
when neither field is present — never None. -/
theorem claim_C6 :
    (∀ (obj : RawRecord) (xs ys : List PyVal),
      dget obj "aliases" = vlist xs → dget obj "x_mitre_aliases" = vlist ys →
      set_alias obj = xs ++ ys)
    ∧ (∀ (obj : RawRecord) (xs : List PyVal),
        dget obj "aliases" = vlist xs → dget obj "x_mitre_aliases" = vnone →
        set_alias obj = xs)
    ∧ (∀ (obj : RawRecord) (ys : List PyVal),
        dget obj "aliases" = vnone → dget obj "x_mitre_aliases" = vlist ys →
        set_alias obj = ys)
    ∧ (∀ obj : RawRecord,
        dget obj "aliases" = vnone → dget obj "x_mitre_aliases" = vnone →
        set_alias obj = []) := by
  refine ⟨?_, ?_, ?_, ?_⟩
  · intro obj xs ys h1 h2
    unfold set_alias
    rw [h1, h2]
    cases xs <;> cases ys <;> rfl
  · intro obj xs h1 h2
    unfold set_alias
    rw [h1, h2]
    cases xs with
    | nil => rfl
    | cons x xs => simp [truthy, pyIter]
  · intro obj ys h1 h2
    unfold set_alias
    rw [h1, h2]
    cases ys with
    | nil => rfl
    | cons y ys => simp [truthy, pyIter]
  · intro obj h1 h2
    unfold set_alias
    rw [h1, h2]
    rfl

/-- C6 witness: a record carrying only the primary alias field — the
secondary field absent contributes nothing and the entries come through
in order. -/
theorem claim_C6_witness :
    set_alias [("aliases", vlist [vstr "APT1", vstr "Comment Crew"])]
      = [vstr "APT1", vstr "Comment Crew"] :=
  claim_C6.2.1 [("aliases", vlist [vstr "APT1", vstr "Comment Crew"])]
    [vstr "APT1", vstr "Comment Crew"] rfl rfl

/-- C7: `_set_attribute` returns the stored value verbatim when present
and truthy, and None when the field is missing, None, or
empty-equivalent (empty string or empty list); in particular an
empty-string description normalizes to None. -/
theorem claim_C7 :
    (∀ (obj : RawRecord) (name : String), dHasKey obj name = false →
      set_attribute obj name = vnone)
    ∧ (∀ (obj : RawRecord) (name : String), dget obj name = vnone →
        set_attribute obj name = vnone)
    ∧ (∀ (obj : RawRecord) (name : String), dget obj name = vstr "" →
        set_attribute obj name = vnone)
    ∧ (∀ (obj : RawRecord) (name : String), dget obj name = vlist [] →
        set_attribute obj name = vnone)
    ∧ (∀ (obj : RawRecord) (name s : String), dget obj name = vstr s → s ≠ "" →
        set_attribute obj name = vstr s)
    ∧ (∀ (obj : RawRecord) (name : String) (x : PyVal) (xs : List PyVal),
        dget obj name = vlist (x :: xs) → set_attribute obj name = vlist (x :: xs))
    ∧ set_attribute [("name", vstr "Rundll32"), ("description", vstr "")] "description"
        = vnone := by
  refine ⟨?_, ?_, ?_, ?_, ?_, ?_, rfl⟩
  · intro obj name hk
    unfold set_attribute
    rw [dget_of_not_has obj name hk]
    rfl
  · intro obj name hv
    unfold set_attribute
    rw [hv]
    rfl
  · intro obj name hv
    unfold set_attribute
    rw [hv]
    rfl
  · intro obj name hv
    unfold set_attribute
    rw [hv]
    rfl
  · intro obj name s hv hs
    unfold set_attribute
    rw [hv]
    simp [truthy, hs]
  · intro obj name x xs hv
    unfold set_attribute
    rw [hv]
    rfl

/-- C7 witness: a present non-empty name is returned verbatim. -/
theorem claim_C7_witness :
    set_attribute [("name", vstr "Rundll32")] "name" = vstr "Rundll32" :=
  claim_C7.2.2.2.2.1 _ "name" "Rundll32" rfl (by decide)

/-- C8: `_set_list_items` returns an ordered copy of the field's items
when the key is present — even when the list is empty — and returns
None, not an empty list, when the key is absent. -/
theorem claim_C8 :
    (∀ (obj : RawRecord) (name : String) (xs : List PyVal),
      dHasKey obj name = true → dget obj name = vlist xs →
      set_list_items obj name = .ok (some xs))
    ∧ (∀ (obj : RawRecord) (name : String), dHasKey obj name = false →
        set_list_items obj name = .ok none) := by
  constructor
  · intro obj name xs hk hv
    unfold set_list_items
    rw [if_pos hk, hv]
    rfl
  · intro obj name hk
    unfold set_list_items
    simp [hk]

/-- C8 witness: a present empty list field yields an empty list, while
the same lookup on the absent key yields None. -/
theorem claim_C8_witness :
    set_list_items [("x_mitre_platforms", vlist [])] "x_mitre_platforms" = .ok (some []) :=
  claim_C8.1 _ "x_mitre_platforms" [] rfl rfl

/-- C9 (amended): on a list of strings each containing at most one
separator, `_create_data_sources_dict` groups the stripped components
by source — the keys are the sources in order of first occurrence and
each key's list collects, in order, the components of the entries with
that source — entries without a separator are ignored, a non-list
argument yields the empty dict, and the concrete example evaluates as
specified. -/
theorem claim_C9 :
    (∀ xs : List String, (∀ s ∈ xs, (splitColon s).length ≤ 2) →
      ∃ m, create_data_sources_dict (vlist (xs.map vstr)) = .ok m ∧
        m.map Prod.fst = orderedKeys (specPairs xs) ∧
        ∀ k, getList m k = ((specPairs xs).filter (fun p => decide (p.1 = k))).map Prod.snd)
    ∧ (∀ v : PyVal, (∀ xs, v ≠ vlist xs) → create_data_sources_dict v = .ok [])
    ∧ create_data_sources_dict
        (vlist [vstr "Process: Process Creation", vstr "File:File Access", vstr "nocolon"])
        = .ok [("Process", ["Process Creation"]), ("File", ["File Access"])] := by
  refine ⟨?_, ?_, rfl⟩
  · intro xs h
    refine ⟨(specPairs xs).foldl (fun a p => dictAppend a p.1 p.2) [], ?_, ?_, ?_⟩
    · show List.foldlM dsStep [] (xs.map vstr) = _
      rw [foldlM_dsStep xs [] h, foldl_dsApply_specPairs]
    · rw [keys_foldl_pairs]
      rfl
    · intro k
      rw [getList_foldl_pairs]
      simp [getList, List.find?]
  · intro v hv
    cases v with
    | vnone => rfl
    | vstr s => rfl
    | vdict d => rfl
    | vlist xs => exact absurd rfl (hv xs)

/-- C9 witness: the grouping properties at the spec's concrete example. -/
theorem claim_C9_witness :
    ∃ m, create_data_sources_dict
        (vlist ((["Process: Process Creation", "File:File Access", "nocolon"] : List String).map vstr))
        = .ok m ∧
      m.map Prod.fst
        = orderedKeys (specPairs ["Process: Process Creation", "File:File Access", "nocolon"]) ∧
      ∀ k, getList m k
        = ((specPairs ["Process: Process Creation", "File:File Access", "nocolon"]).filter
            (fun p => decide (p.1 = k))).map Prod.snd :=
  claim_C9.1 ["Process: Process Creation", "File:File Access", "nocolon"] (by decide)

/-- C9 counterexample: on the list of strings ["a:b:c"] the function
raises ValueError instead of returning a mapping, so the unrestricted
"for every list of strings" fails. -/
theorem claim_C9_counterexample :
    create_data_sources_dict (vlist ((["a:b:c"] : List String).map vstr))
      = .error "ValueError" := rfl

/-- C10: a self-loop relationship record (source_ref = target_ref = X)
appends X twice to X's own adjacency list, whatever the prior index
state: first as the record's target under the source key, then as its
source under the target key. -/
theorem claim_C10 :
    ∀ (acc : RelDict) (s : String), ∃ out,
      relStep acc (mkRel s s) = .ok out ∧
      getList out (some s) = getList acc (some s) ++ [some s, some s] := by
  intro acc s
  refine ⟨relPure acc (s, s), relStep_mkRel acc (s, s), ?_⟩
  rw [getList_relPure]
  simp [contrib]

end Pyattck
